import Mathlib

/-!
Shallow embedding of the core of hpp-manipulation:
`src/graph-path-validation.cc` (GraphPathValidation),
`src/graph-steering-method.cc` (GraphSteeringMethod) and
`include/hpp/manipulation/graph/node-selector.hh` (NodeSelector).

Configurations are numeric vectors, paths are time-parameterized maps whose
evaluation (projection) may fail, the constraint graph classifies a
configuration to a node and may throw a logic error (`Except String`).
-/

namespace Manip

/-- Configuration: a numeric vector. -/
abbrev Config : Type := List Int

/-- A graph node (state) is referenced by identity. -/
abbrev Node : Type := Nat

/-- Path parameter. -/
abbrev Time : Type := Int

/-- A non-composite path: a time interval `[t0, t1]` and an evaluation map.
Evaluation returns `none` when the projection onto the path constraint fails,
mirroring `bool Path::operator() (ConfigurationOut_t, value_type)`. -/
structure Path where
  outputSize : Nat
  t0 : Time
  t1 : Time
  eval : Time → Option Config

/-- Models `Path::extract (std::make_pair (a, b))`: the sub-path over `[a, b]`,
evaluating as the original path does.  The source only calls it with
`a = b = ` the original start time, a zero-length sub-path. -/
def Path.extract (p : Path) (a b : Time) : Path :=
  { outputSize := p.outputSize, t0 := a, t1 := b, eval := p.eval }

/-- The constraint graph as consumed by GraphPathValidation:
`getNode (q)` classifies a configuration, throwing `std::logic_error`
(modelled by `Except.error` with the message) when classification fails. -/
structure Graph where
  getNode : Config → Except String Node

/-- The wrapped collision-only path validator:
`validate (path, reverse, pathNoCollision, report)` returns whether the whole
path is collision-free and, when it is not, the collision-truncated sub-path
(`pathNoCollision`). -/
structure PathValidation where
  validate : Path → Bool → Bool × Path

/-- The `std::logic_error`s that `GraphPathValidation::impl_validate` can
propagate to the caller: the four explicit `throw` sites on projection
failure, and a classification error from an uncaught `getNode` call. -/
inductive VError where
  | projValidInit
  | projValidEnd
  | projOldInit
  | projOldEnd
  | nodeLookup (msg : String)
deriving Repr, DecidableEq

/-- A path as dispatched by `impl_validate (PathPtr_t, ...)`: either a
non-composite path or a `PathVector` (created with an output size and an
output derivative size) holding an ordered list of sub-paths. -/
inductive GPath where
  | atomic (p : Path)
  | vector (outputSize outputDerivativeSize : Nat) (elems : List GPath)

/-- `Path::copy ()`: paths are value-like, a copy is the same path. -/
def GPath.copy (p : GPath) : GPath := p

/-- The non-composite branch of `GraphPathValidation::impl_validate`
(graph-path-validation.cc lines 109-169), translated clause by clause:
delegate to the wrapped collision validator; on full validity return the
input path with success.  Otherwise evaluate and classify the truncated
sub-path's start and end (projection failure throws; only the classification
of the truncated end is guarded by `try/catch`, recovering with a zero-length
extract at the original start), then evaluate and classify the original
path's start and end (projection failure throws, classification failure
propagates), and return the truncated sub-path exactly when both
classifications agree with the original's, else the zero-length extract. -/
def implValidateAtomic (g : Graph) (pv : PathValidation) (path : Path)
    (reverse : Bool) : Except VError (Bool × GPath) :=
  match pv.validate path reverse with
  | (true, _) => .ok (true, .atomic path)
  | (false, pathNoCollision) =>
    match pathNoCollision.eval pathNoCollision.t0 with
    | none => .error .projValidInit
    | some qNewInit =>
      match g.getNode qNewInit with
      | .error msg => .error (.nodeLookup msg)
      | .ok origNode =>
        match pathNoCollision.eval pathNoCollision.t1 with
        | none => .error .projValidEnd
        | some qNewEnd =>
          match g.getNode qNewEnd with
          | .error _ => .ok (false, .atomic (path.extract path.t0 path.t0))
          | .ok destNode =>
            match path.eval path.t0 with
            | none => .error .projOldInit
            | some qOldInit =>
              match g.getNode qOldInit with
              | .error msg => .error (.nodeLookup msg)
              | .ok oldOnode =>
                match path.eval path.t1 with
                | none => .error .projOldEnd
                | some qOldEnd =>
                  match g.getNode qOldEnd with
                  | .error msg => .error (.nodeLookup msg)
                  | .ok oldDnode =>
                    if origNode = oldOnode ∧ destNode = oldDnode then
                      .ok (false, .atomic pathNoCollision)
                    else
                      .ok (false, .atomic (path.extract path.t0 path.t0))

mutual
/-- `GraphPathValidation::impl_validate (PathPtr_t, ...)`: dispatch on
whether the path is a `PathVector`; composite paths iterate their elements
(forward or reverse), non-composite paths go to `implValidateAtomic`.
On the first invalid element the returned valid part is a new `PathVector`
(same sizes) of the copied already-validated elements followed by the
element's valid sub-part; note that the reverse branch of the source appends
`path->pathAtRank (i)->copy ()` — the failing element — in its copy loop. -/
def implValidate (g : Graph) (pv : PathValidation) (p : GPath)
    (reverse : Bool) : Except VError (Bool × GPath) :=
  match p with
  | .atomic ap => implValidateAtomic g pv ap reverse
  | .vector os od elems =>
    if reverse then
      match goRev g pv elems with
      | .error e => .error e
      | .ok none => .ok (true, .vector os od elems)
      | .ok (some (k, failElem, sub)) =>
        .ok (false, .vector os od (List.replicate k failElem.copy ++ [sub]))
    else
      match goFwd g pv elems with
      | .error e => .error e
      | .ok none => .ok (true, .vector os od elems)
      | .ok (some (validPre, sub)) =>
        .ok (false, .vector os od (validPre ++ [sub]))
termination_by sizeOf p

/-- Forward loop of the `PathVector` branch (lines 83-95): validate the
elements in order; on the first invalid element return the copies of the
valid elements before it and its valid sub-part; `none` when all valid. -/
def goFwd (g : Graph) (pv : PathValidation) (elems : List GPath) :
    Except VError (Option (List GPath × GPath)) :=
  match elems with
  | [] => .ok none
  | e :: rest =>
    match implValidate g pv e false with
    | .error err => .error err
    | .ok (false, sub) => .ok (some ([], sub))
    | .ok (true, _) =>
      match goFwd g pv rest with
      | .error err => .error err
      | .ok none => .ok none
      | .ok (some (validPre, sub)) => .ok (some (e.copy :: validPre, sub))
termination_by sizeOf elems

/-- Reverse loop of the `PathVector` branch (lines 69-81): validate the
elements from the last index down; on the first invalid element return how
many elements were traversed before it (`n - 1 - i`), the element itself and
its valid sub-part; `none` when all valid. -/
def goRev (g : Graph) (pv : PathValidation) (elems : List GPath) :
    Except VError (Option (Nat × GPath × GPath)) :=
  match elems with
  | [] => .ok none
  | e :: rest =>
    match goRev g pv rest with
    | .error err => .error err
    | .ok (some r) => .ok (some r)
    | .ok none =>
      match implValidate g pv e true with
      | .error err => .error err
      | .ok (true, _) => .ok none
      | .ok (false, sub) => .ok (some (rest.length, e, sub))
termination_by sizeOf elems
end

mutual
/-- Initial configuration of a path (`Path::initial ()` in the source,
obtained here by evaluating at the start of the time range; `none` when the
projection fails or the composite path is empty). -/
def GPath.initialConfig (p : GPath) : Option Config :=
  match p with
  | .atomic ap => ap.eval ap.t0
  | .vector _ _ elems => initialConfigList elems
termination_by sizeOf p

/-- Initial configuration of a composite path: that of its first element. -/
def initialConfigList (elems : List GPath) : Option Config :=
  match elems with
  | [] => none
  | e :: _ => e.initialConfig
termination_by sizeOf elems
end

mutual
/-- End configuration of a path (`Path::end ()` in the source, obtained here
by evaluating at the end of the time range). -/
def GPath.endConfig (p : GPath) : Option Config :=
  match p with
  | .atomic ap => ap.eval ap.t1
  | .vector _ _ elems => endConfigList elems
termination_by sizeOf p

/-- End configuration of a composite path: that of its last element. -/
def endConfigList (elems : List GPath) : Option Config :=
  match elems with
  | [] => none
  | [e] => e.endConfig
  | _ :: e :: rest => endConfigList (e :: rest)
termination_by sizeOf elems
end

mutual
/-- Full validity of a path as the wrapped collision validator reports it
when `impl_validate` traverses the path: a non-composite path is fully valid
when `pathValidation_->validate` succeeds on it, a `PathVector` when every
element is (the traversal hands the same `reverse` flag down). -/
def FullyValid (pv : PathValidation) (p : GPath) (reverse : Bool) : Prop :=
  match p with
  | .atomic ap => (pv.validate ap reverse).1 = true
  | .vector _ _ elems => FullyValidList pv elems reverse
termination_by sizeOf p

/-- Full validity of every element of a composite path. -/
def FullyValidList (pv : PathValidation) (elems : List GPath)
    (reverse : Bool) : Prop :=
  match elems with
  | [] => True
  | e :: rest => FullyValid pv e reverse ∧ FullyValidList pv rest reverse
termination_by sizeOf elems
end

/-- The outcome of the public `GraphPathValidation::validate`: a debug-build
assertion failure (abort), a propagated `std::logic_error`, or a normal
return of the success flag and the valid part. -/
inductive VOutcome where
  | assertionFailure
  | fatal (e : VError)
  | result (success : Bool) (validPart : GPath)

/-- Holds whether an `Except` holds a value, as the `assert` on a shared
pointer holds on a non-null result. -/
def exceptOk (e : Except String Node) : Bool :=
  match e with
  | .ok _ => true
  | .error _ => false

/-- The two endpoint assertions of `GraphPathValidation::validate` (lines
40-41): the initial and end configurations of the valid part both classify
to some node of the constraint graph. -/
def nodeAssert (g : Graph) (p : GPath) : Bool :=
  (match p.initialConfig with
   | some c => exceptOk (g.getNode c)
   | none => false) &&
  (match p.endConfig with
   | some c => exceptOk (g.getNode c)
   | none => false)

/-- `GraphPathValidation`: the wrapped collision-only validator and the
back reference to the constraint graph, which `create` leaves unset
(`constraintGraph_ ()` in the constructor, lines 29-31). -/
structure GraphPathValidation where
  pathValidation : PathValidation
  constraintGraph : Option Graph

/-- `GraphPathValidation::create (pathValidation)`: constructs the validator;
the constraint-graph reference starts null. -/
def GraphPathValidation.create (pv : PathValidation) : GraphPathValidation :=
  { pathValidation := pv, constraintGraph := none }

/-- The public `GraphPathValidation::validate (path, reverse, validPart)`
(lines 33-43): runs `impl_validate`, then asserts that the constraint graph
is set and that both endpoints of the valid part classify to a node.
`impl_validate` itself dereferences the constraint graph, so with a null
graph the call never returns normally; debug builds stop at
`assert (constraintGraph_)`, modelled by `assertionFailure`. -/
def GraphPathValidation.validate (v : GraphPathValidation) (p : GPath)
    (reverse : Bool) : VOutcome :=
  match v.constraintGraph with
  | none => .assertionFailure
  | some g =>
    match implValidate g v.pathValidation p reverse with
    | .error e => .fatal e
    | .ok (success, validPart) =>
      if nodeAssert g validPart then .result success validPart
      else .assertionFailure

/-- A graph edge as consumed by `GraphSteeringMethod::impl_compute`:
`build (path, q1, q2)` attempts to synthesize a path between the two
configurations, `none` on failure. -/
structure Edge where
  build : Config → Config → Option Path

/-- The constraint graph as consumed by `GraphSteeringMethod`: `getState`
classifies a configuration and `getEdges` lists the edges between two
states; both may throw `std::logic_error`. -/
structure StGraph where
  getState : Config → Except String Node
  getEdges : Node → Node → Except String (List Edge)

/-- The `try` block of `impl_compute` (graph-steering-method.cc lines
72-78): classify both configurations and query the edges between the two
states; any `std::logic_error` from either call surfaces here. -/
def getPossibleEdges (graph : StGraph) (q1 q2 : Config) :
    Except String (List Edge) := do
  let s1 ← graph.getState q1
  let s2 ← graph.getState q2
  graph.getEdges s1 s2

/-- The `while` loop of `impl_compute` (lines 83-88): try `build` on the
edge at the back of the candidate list, return its path on the first
success, `pop_back` and continue on failure.  The list is consumed from the
back, so the loop is recursion over the reversed list. -/
def tryEdges (q1 q2 : Config) (stack : List Edge) : Option Path :=
  match stack with
  | [] => none
  | e :: rest =>
    match e.build q1 q2 with
    | some path => some path
    | none => tryEdges q1 q2 rest

/-- `GraphSteeringMethod::impl_compute (q1, q2)` (lines 68-90): query the
candidate edges (a caught logic error is logged and yields no-path), then
consume the candidates from the back; no success yields no-path.  The
result is `Option`: absence of a connecting motion is a normal outcome, no
exception reaches the caller. -/
def impl_compute (graph : StGraph) (q1 q2 : Config) : Option Path :=
  match getPossibleEdges graph q1 q2 with
  | .error _ => none
  | .ok possibleEdges => tryEdges q1 q2 possibleEdges.reverse

/-- A node (state) as held by `NodeSelector`: an identity and the constraint
predicate a configuration must satisfy to be in the state. -/
structure GraphNode where
  id : Nat
  contains : Config → Bool

/-- `NodeSelector`: the list of states ordered by priority
(`orderedStates_` in node-selector.hh). -/
structure NodeSelector where
  orderedStates : List GraphNode

/-- Modelled from the spec: the body of `NodeSelector::getState` is not in
the repository's source files (node-selector.hh only declares
`virtual Node getState(const Configuration_t config) const`).  Per the spec,
it iterates the priority-ordered state list and returns the first state
whose constraint predicate the configuration satisfies; `none` when no state
matches. -/
def NodeSelector.getState (s : NodeSelector) (config : Config) :
    Option GraphNode :=
  s.orderedStates.find? (fun st => st.contains config)

/-! Concrete instances used to evaluate the definitions on explicit
inputs. -/

/-- A demo path: the ramp over `[a, b]` whose value at time `t` is `[t]`. -/
def rampPath (a b : Time) : Path :=
  { outputSize := 1, t0 := a, t1 := b, eval := fun t => some [t] }

/-- A demo constraint graph classifying every configuration to node 0. -/
def gAll : Graph := { getNode := fun _ => .ok 0 }

/-- A demo constraint graph classifying `[x]` with `x < 5` to node 0 and
throwing a logic error on every other configuration. -/
def gHalf : Graph :=
  { getNode := fun c =>
      match c with
      | [x] => if x < 5 then .ok 0 else .error "no node matches"
      | _ => .error "bad dimension" }

/-- A demo collision validator that rejects every path, truncating it to
`[t0, 5]`. -/
def pvFail5 : PathValidation :=
  { validate := fun p _ => (false, p.extract p.t0 5) }

/-- A demo collision validator that rejects exactly the paths starting at
time 0, truncating them to `[t0, 5]`, and accepts every other path. -/
def pvT0 : PathValidation :=
  { validate := fun p _ =>
      if p.t0 = 0 then (false, p.extract p.t0 5) else (true, p) }

/-- Demo composite element over `[0, 10]` (rejected by `pvT0`). -/
def elem0 : GPath := .atomic (rampPath 0 10)

/-- Demo composite element over `[10, 20]` (accepted by `pvT0`). -/
def elem1 : GPath := .atomic (rampPath 10 20)

/-- Demo composite element over `[20, 30]` (accepted by `pvT0`). -/
def elem2 : GPath := .atomic (rampPath 20 30)

/-- The valid sub-part `pvT0` leaves of `elem0` after graph checking. -/
def sub0 : GPath := .atomic ((rampPath 0 10).extract 0 5)

/-- A demo edge whose build always fails. -/
def eFail : Edge := { build := fun _ _ => none }

/-- A demo edge whose build always returns the unit ramp path. -/
def eOk : Edge := { build := fun _ _ => some (rampPath 0 1) }

/-- A demo steering graph: every configuration in state 0, candidate edge
list `[eFail, eOk]`. -/
def stDemo : StGraph :=
  { getState := fun _ => .ok 0
    getEdges := fun _ _ => .ok [eFail, eOk] }

/-- Demo state A of the spec's selector example: satisfied when the first
coordinate is positive. -/
def stateA : GraphNode :=
  { id := 0
    contains := fun c => match c with | x :: _ => decide (0 < x) | [] => false }

/-- Demo state B of the spec's selector example: always satisfied. -/
def stateB : GraphNode := { id := 1, contains := fun _ => true }

/-- The spec's demo selector: `[A, B]` in priority order. -/
def selAB : NodeSelector := { orderedStates := [stateA, stateB] }

/-! Unfolding lemmas for the well-founded mutual definitions. -/

theorem implValidate_atomic (g : Graph) (pv : PathValidation) (ap : Path)
    (reverse : Bool) :
    implValidate g pv (.atomic ap) reverse = implValidateAtomic g pv ap reverse := by
  rw [implValidate]

theorem implValidate_vector_false (g : Graph) (pv : PathValidation)
    (os od : Nat) (elems : List GPath) :
    implValidate g pv (.vector os od elems) false =
      match goFwd g pv elems with
      | .error e => .error e
      | .ok none => .ok (true, .vector os od elems)
      | .ok (some (validPre, sub)) =>
        .ok (false, .vector os od (validPre ++ [sub])) := by
  rw [implValidate]; simp

theorem implValidate_vector_true (g : Graph) (pv : PathValidation)
    (os od : Nat) (elems : List GPath) :
    implValidate g pv (.vector os od elems) true =
      match goRev g pv elems with
      | .error e => .error e
      | .ok none => .ok (true, .vector os od elems)
      | .ok (some (k, failElem, sub)) =>
        .ok (false, .vector os od (List.replicate k failElem.copy ++ [sub])) := by
  rw [implValidate]; simp

theorem goFwd_nil (g : Graph) (pv : PathValidation) :
    goFwd g pv [] = .ok none := by
  rw [goFwd]

theorem goFwd_cons (g : Graph) (pv : PathValidation) (e : GPath)
    (rest : List GPath) :
    goFwd g pv (e :: rest) =
      match implValidate g pv e false with
      | .error err => .error err
      | .ok (false, sub) => .ok (some ([], sub))
      | .ok (true, _) =>
        match goFwd g pv rest with
        | .error err => .error err
        | .ok none => .ok none
        | .ok (some (validPre, sub)) => .ok (some (e.copy :: validPre, sub)) := by
  rw [goFwd]

theorem goRev_nil (g : Graph) (pv : PathValidation) :
    goRev g pv [] = .ok none := by
  rw [goRev]

theorem goRev_cons (g : Graph) (pv : PathValidation) (e : GPath)
    (rest : List GPath) :
    goRev g pv (e :: rest) =
      match goRev g pv rest with
      | .error err => .error err
      | .ok (some r) => .ok (some r)
      | .ok none =>
        match implValidate g pv e true with
        | .error err => .error err
        | .ok (true, _) => .ok none
        | .ok (false, sub) => .ok (some (rest.length, e, sub)) := by
  rw [goRev]

theorem initialConfig_atomic (ap : Path) :
    GPath.initialConfig (.atomic ap) = ap.eval ap.t0 := by
  rw [GPath.initialConfig]

theorem endConfig_atomic (ap : Path) :
    GPath.endConfig (.atomic ap) = ap.eval ap.t1 := by
  rw [GPath.endConfig]

theorem fullyValid_atomic (pv : PathValidation) (ap : Path) (reverse : Bool) :
    FullyValid pv (.atomic ap) reverse ↔ (pv.validate ap reverse).1 = true := by
  rw [FullyValid]

theorem fullyValid_vector (pv : PathValidation) (os od : Nat)
    (elems : List GPath) (reverse : Bool) :
    FullyValid pv (.vector os od elems) reverse ↔
      FullyValidList pv elems reverse := by
  rw [FullyValid]

theorem fullyValidList_nil (pv : PathValidation) (reverse : Bool) :
    FullyValidList pv [] reverse := by
  rw [FullyValidList]; trivial

theorem fullyValidList_cons (pv : PathValidation) (e : GPath)
    (rest : List GPath) (reverse : Bool) :
    FullyValidList pv (e :: rest) reverse ↔
      FullyValid pv e reverse ∧ FullyValidList pv rest reverse := by
  rw [FullyValidList]

/-! Helper lemmas shared by the claim theorems. -/

mutual
/-- A fully valid path comes back unchanged with success. -/
theorem fullyValid_ok (g : Graph) (pv : PathValidation) (p : GPath)
    (reverse : Bool) (h : FullyValid pv p reverse) :
    implValidate g pv p reverse = .ok (true, p) := by
  match p with
  | .atomic ap =>
    rw [implValidate_atomic]
    rw [fullyValid_atomic] at h
    unfold implValidateAtomic
    rcases hv : pv.validate ap reverse with ⟨b, w⟩
    rw [hv] at h
    simp at h
    subst h
    rfl
  | .vector os od elems =>
    rw [fullyValid_vector] at h
    cases reverse with
    | false => rw [implValidate_vector_false, fullyValidList_goFwd g pv elems h]
    | true => rw [implValidate_vector_true, fullyValidList_goRev g pv elems h]
termination_by sizeOf p

/-- The forward loop reports no invalid element on a fully valid list. -/
theorem fullyValidList_goFwd (g : Graph) (pv : PathValidation)
    (elems : List GPath) (h : FullyValidList pv elems false) :
    goFwd g pv elems = .ok none := by
  match elems with
  | [] => rw [goFwd_nil]
  | e :: rest =>
    rw [fullyValidList_cons] at h
    rw [goFwd_cons, fullyValid_ok g pv e false h.1,
        fullyValidList_goFwd g pv rest h.2]
termination_by sizeOf elems

/-- The reverse loop reports no invalid element on a fully valid list. -/
theorem fullyValidList_goRev (g : Graph) (pv : PathValidation)
    (elems : List GPath) (h : FullyValidList pv elems true) :
    goRev g pv elems = .ok none := by
  match elems with
  | [] => rw [goRev_nil]
  | e :: rest =>
    rw [fullyValidList_cons] at h
    rw [goRev_cons, fullyValidList_goRev g pv rest h.2,
        fullyValid_ok g pv e true h.1]
termination_by sizeOf elems
end

/-- The forward loop on a list whose first elements are all valid and whose
next element is invalid stops there, returning the valid elements (their
copies) and the invalid element's valid sub-part. -/
theorem goFwd_split (g : Graph) (pv : PathValidation) (validPre : List GPath)
    (ek : GPath) (rest : List GPath) (sub : GPath)
    (hpre : ∀ e ∈ validPre, ∃ w, implValidate g pv e false = .ok (true, w))
    (hk : implValidate g pv ek false = .ok (false, sub)) :
    goFwd g pv (validPre ++ ek :: rest) = .ok (some (validPre, sub)) := by
  induction validPre with
  | nil => rw [List.nil_append, goFwd_cons, hk]
  | cons e pre ih =>
    obtain ⟨w, hw⟩ := hpre e (List.mem_cons_self e pre)
    rw [List.cons_append, goFwd_cons, hw,
        ih (fun x hx => hpre x (List.mem_cons_of_mem e hx))]
    rfl

/-- A list whose elements are each fully valid is a fully valid list. -/
theorem fullyValidList_of_forall (pv : PathValidation) (elems : List GPath)
    (reverse : Bool) (h : ∀ e ∈ elems, FullyValid pv e reverse) :
    FullyValidList pv elems reverse := by
  induction elems with
  | nil => exact fullyValidList_nil pv reverse
  | cons e rest ih =>
    rw [fullyValidList_cons]
    exact ⟨h e (List.mem_cons_self e rest),
           ih (fun x hx => h x (List.mem_cons_of_mem e hx))⟩

/-! The claims. -/

/-- Claim C1: for a non-composite path rejected by the wrapped collision
validator, when the projections and classifications of the truncated
sub-path's and the original path's endpoints all succeed, `impl_validate`
returns failure with the truncated sub-path as the valid part exactly when
the truncated endpoints classify to the same state pair as the original
endpoints, and otherwise failure with a zero-length sub-path extracted at
the original start time. -/
theorem claim_C1 (g : Graph) (pv : PathValidation) (path : Path)
    (reverse : Bool) (pnc : Path) (q0 q1 c0 c1 : Config)
    (origNode destNode oldOnode oldDnode : Node)
    (hv : pv.validate path reverse = (false, pnc))
    (e0 : pnc.eval pnc.t0 = some q0) (g0 : g.getNode q0 = .ok origNode)
    (e1 : pnc.eval pnc.t1 = some q1) (g1 : g.getNode q1 = .ok destNode)
    (e2 : path.eval path.t0 = some c0) (g2 : g.getNode c0 = .ok oldOnode)
    (e3 : path.eval path.t1 = some c1) (g3 : g.getNode c1 = .ok oldDnode) :
    implValidate g pv (.atomic path) reverse =
      .ok (false,
        if origNode = oldOnode ∧ destNode = oldDnode then .atomic pnc
        else .atomic (path.extract path.t0 path.t0)) := by
  rw [implValidate_atomic]
  simp only [implValidateAtomic, hv, e0, g0, e1, g1, e2, g2, e3, g3]
  split <;> rfl

/-- Witness for claim C1: with the all-to-node-0 graph and the
always-truncating validator, the truncated sub-path keeps the state pair and
is returned as the valid part with failure. -/
theorem claim_C1_witness :
    implValidate gAll pvFail5 (.atomic (rampPath 0 10)) false =
      .ok (false, .atomic ((rampPath 0 10).extract 0 5)) := by
  have h := claim_C1 gAll pvFail5 (rampPath 0 10) false
    ((rampPath 0 10).extract 0 5) [0] [5] [0] [10] 0 0 0 0
    rfl rfl rfl rfl rfl rfl rfl rfl rfl
  rw [h]
  simp

/-- Claim C2: when `impl_validate` returns normally on a non-composite path
whose endpoints classify to the origin/destination pair of the edge that
produced it (`nO`, `nD`), the returned valid part's endpoints classify to
that same pair, or the valid part is the degenerate zero-length extract at
the original start time. -/
theorem claim_C2 (g : Graph) (pv : PathValidation) (path : Path)
    (reverse : Bool) (nO nD : Node) (c0 c1 : Config)
    (h0 : path.eval path.t0 = some c0) (h1 : g.getNode c0 = .ok nO)
    (h2 : path.eval path.t1 = some c1) (h3 : g.getNode c1 = .ok nD)
    (b : Bool) (vp : GPath)
    (hres : implValidate g pv (.atomic path) reverse = .ok (b, vp)) :
    (∃ d0 d1, vp.initialConfig = some d0 ∧ g.getNode d0 = .ok nO ∧
       vp.endConfig = some d1 ∧ g.getNode d1 = .ok nD) ∨
    vp = .atomic (path.extract path.t0 path.t0) := by
  rw [implValidate_atomic] at hres
  rcases hv : pv.validate path reverse with ⟨bv, pnc⟩
  cases bv with
  | true =>
    simp only [implValidateAtomic, hv, Except.ok.injEq, Prod.mk.injEq] at hres
    left
    refine ⟨c0, c1, ?_, h1, ?_, h3⟩
    · rw [← hres.2, initialConfig_atomic, h0]
    · rw [← hres.2, endConfig_atomic, h2]
  | false =>
    cases he0 : pnc.eval pnc.t0 with
    | none => simp only [implValidateAtomic, hv, he0] at hres; exact Except.noConfusion hres
    | some q0 =>
    cases hg0 : g.getNode q0 with
    | error m => simp only [implValidateAtomic, hv, he0, hg0] at hres; exact Except.noConfusion hres
    | ok origNode =>
    cases he1 : pnc.eval pnc.t1 with
    | none => simp only [implValidateAtomic, hv, he0, hg0, he1] at hres; exact Except.noConfusion hres
    | some q1 =>
    cases hg1 : g.getNode q1 with
    | error m =>
      simp only [implValidateAtomic, hv, he0, hg0, he1, hg1, Except.ok.injEq,
        Prod.mk.injEq] at hres
      right
      exact hres.2.symm
    | ok destNode =>
    simp only [implValidateAtomic, hv, he0, hg0, he1, hg1, h0, h1, h2, h3]
      at hres
    by_cases hc : origNode = nO ∧ destNode = nD
    · rw [if_pos hc] at hres
      simp only [Except.ok.injEq, Prod.mk.injEq] at hres
      left
      refine ⟨q0, q1, ?_, ?_, ?_, ?_⟩
      · rw [← hres.2, initialConfig_atomic, he0]
      · rw [hg0, hc.1]
      · rw [← hres.2, endConfig_atomic, he1]
      · rw [hg1, hc.2]
    · rw [if_neg hc] at hres
      simp only [Except.ok.injEq, Prod.mk.injEq] at hres
      right
      exact hres.2.symm

/-- Witness for claim C2: on the demo rejected path the valid part is the
truncated sub-path, whose endpoints classify to the same pair. -/
theorem claim_C2_witness :
    (∃ d0 d1,
       (GPath.atomic ((rampPath 0 10).extract 0 5)).initialConfig = some d0 ∧
       gAll.getNode d0 = .ok 0 ∧
       (GPath.atomic ((rampPath 0 10).extract 0 5)).endConfig = some d1 ∧
       gAll.getNode d1 = .ok 0) ∨
    GPath.atomic ((rampPath 0 10).extract 0 5) =
      .atomic ((rampPath 0 10).extract 0 0) := by
  refine claim_C2 gAll pvFail5 (rampPath 0 10) false 0 0 [0] [10]
    rfl rfl rfl rfl false (.atomic ((rampPath 0 10).extract 0 5)) ?_
  rw [implValidate_atomic]
  rfl

/-- Claim C3: the three failure classes of `impl_validate` on a
collision-rejected non-composite path have distinct outcomes: a normal
return always carries result `false`; a projection failure at an endpoint of
the truncated or the original path propagates as a distinct fatal error,
never as a normal return; a classification failure at the truncated end is
recovered as a normal `false` return with the zero-length sub-path at the
original start. -/
theorem claim_C3 (g : Graph) (pv : PathValidation) (path : Path)
    (reverse : Bool) (pnc : Path)
    (hv : pv.validate path reverse = (false, pnc)) :
    (∀ b vp, implValidate g pv (.atomic path) reverse = .ok (b, vp) →
       b = false) ∧
    (pnc.eval pnc.t0 = none →
       implValidate g pv (.atomic path) reverse = .error .projValidInit) ∧
    (∀ q0 n0, pnc.eval pnc.t0 = some q0 → g.getNode q0 = .ok n0 →
       pnc.eval pnc.t1 = none →
       implValidate g pv (.atomic path) reverse = .error .projValidEnd) ∧
    (∀ q0 n0 q1 n1, pnc.eval pnc.t0 = some q0 → g.getNode q0 = .ok n0 →
       pnc.eval pnc.t1 = some q1 → g.getNode q1 = .ok n1 →
       path.eval path.t0 = none →
       implValidate g pv (.atomic path) reverse = .error .projOldInit) ∧
    (∀ q0 n0 q1 n1 c0 n2, pnc.eval pnc.t0 = some q0 → g.getNode q0 = .ok n0 →
       pnc.eval pnc.t1 = some q1 → g.getNode q1 = .ok n1 →
       path.eval path.t0 = some c0 → g.getNode c0 = .ok n2 →
       path.eval path.t1 = none →
       implValidate g pv (.atomic path) reverse = .error .projOldEnd) ∧
    (∀ q0 n0 q1 msg, pnc.eval pnc.t0 = some q0 → g.getNode q0 = .ok n0 →
       pnc.eval pnc.t1 = some q1 → g.getNode q1 = .error msg →
       implValidate g pv (.atomic path) reverse =
         .ok (false, .atomic (path.extract path.t0 path.t0))) := by
  refine ⟨?_, ?_, ?_, ?_, ?_, ?_⟩
  · intro b vp hres
    rw [implValidate_atomic] at hres
    cases he0 : pnc.eval pnc.t0 with
    | none => simp only [implValidateAtomic, hv, he0] at hres; exact Except.noConfusion hres
    | some q0 =>
    cases hg0 : g.getNode q0 with
    | error m => simp only [implValidateAtomic, hv, he0, hg0] at hres; exact Except.noConfusion hres
    | ok n0 =>
    cases he1 : pnc.eval pnc.t1 with
    | none => simp only [implValidateAtomic, hv, he0, hg0, he1] at hres; exact Except.noConfusion hres
    | some q1 =>
    cases hg1 : g.getNode q1 with
    | error m =>
      simp only [implValidateAtomic, hv, he0, hg0, he1, hg1, Except.ok.injEq,
        Prod.mk.injEq] at hres
      exact hres.1.symm
    | ok n1 =>
    cases he2 : path.eval path.t0 with
    | none => simp only [implValidateAtomic, hv, he0, hg0, he1, hg1, he2] at hres; exact Except.noConfusion hres
    | some c0 =>
    cases hg2 : g.getNode c0 with
    | error m =>
      simp only [implValidateAtomic, hv, he0, hg0, he1, hg1, he2, hg2] at hres
      exact Except.noConfusion hres
    | ok n2 =>
    cases he3 : path.eval path.t1 with
    | none =>
      simp only [implValidateAtomic, hv, he0, hg0, he1, hg1, he2, hg2, he3]
        at hres
      exact Except.noConfusion hres
    | some c1 =>
    cases hg3 : g.getNode c1 with
    | error m =>
      simp only [implValidateAtomic, hv, he0, hg0, he1, hg1, he2, hg2, he3,
        hg3] at hres
      exact Except.noConfusion hres
    | ok n3 =>
    simp only [implValidateAtomic, hv, he0, hg0, he1, hg1, he2, hg2, he3, hg3]
      at hres
    by_cases hc : n0 = n2 ∧ n1 = n3
    · rw [if_pos hc] at hres
      simp only [Except.ok.injEq, Prod.mk.injEq] at hres
      exact hres.1.symm
    · rw [if_neg hc] at hres
      simp only [Except.ok.injEq, Prod.mk.injEq] at hres
      exact hres.1.symm
  · intro he0
    rw [implValidate_atomic]
    simp only [implValidateAtomic, hv, he0]
  · intro q0 n0 he0 hg0 he1
    rw [implValidate_atomic]
    simp only [implValidateAtomic, hv, he0, hg0, he1]
  · intro q0 n0 q1 n1 he0 hg0 he1 hg1 he2
    rw [implValidate_atomic]
    simp only [implValidateAtomic, hv, he0, hg0, he1, hg1, he2]
  · intro q0 n0 q1 n1 c0 n2 he0 hg0 he1 hg1 he2 hg2 he3
    rw [implValidate_atomic]
    simp only [implValidateAtomic, hv, he0, hg0, he1, hg1, he2, hg2, he3]
  · intro q0 n0 q1 msg he0 hg0 he1 hg1
    rw [implValidate_atomic]
    simp only [implValidateAtomic, hv, he0, hg0, he1, hg1]

/-- Witness for claim C3: with the graph that throws on configurations at or
above 5, the truncated end fails to classify and `impl_validate` recovers
with a zero-length sub-path at the original start, result false. -/
theorem claim_C3_witness :
    implValidate gHalf pvFail5 (.atomic (rampPath 0 10)) false =
      .ok (false, .atomic ((rampPath 0 10).extract 0 0)) :=
  (claim_C3 gHalf pvFail5 (rampPath 0 10) false
    ((rampPath 0 10).extract 0 5) rfl).2.2.2.2.2
    [0] 0 [5] "no node matches" rfl rfl rfl rfl

/-- The demo element over `[0, 10]` is rejected by `pvT0` and graph-checked
to the valid sub-part `sub0`. -/
theorem elem0_invalid (r : Bool) :
    implValidate gAll pvT0 elem0 r = .ok (false, sub0) := by
  show implValidate gAll pvT0 (.atomic (rampPath 0 10)) r = _
  rw [implValidate_atomic]
  rfl

/-- The demo element over `[10, 20]` is fully valid for `pvT0`. -/
theorem elem1_fullyValid (r : Bool) : FullyValid pvT0 elem1 r := by
  show FullyValid pvT0 (.atomic (rampPath 10 20)) r
  rw [fullyValid_atomic]
  rfl

/-- The demo element over `[20, 30]` is fully valid for `pvT0`. -/
theorem elem2_fullyValid (r : Bool) : FullyValid pvT0 elem2 r := by
  show FullyValid pvT0 (.atomic (rampPath 20 30)) r
  rw [fullyValid_atomic]
  rfl

/-- Validating the demo element over `[10, 20]` returns it unchanged. -/
theorem elem1_valid (g : Graph) (r : Bool) :
    implValidate g pvT0 elem1 r = .ok (true, elem1) :=
  fullyValid_ok g pvT0 elem1 r (elem1_fullyValid r)

/-- Validating the demo element over `[20, 30]` returns it unchanged. -/
theorem elem2_valid (g : Graph) (r : Bool) :
    implValidate g pvT0 elem2 r = .ok (true, elem2) :=
  fullyValid_ok g pvT0 elem2 r (elem2_fullyValid r)

/-- Claim C4: validating a composite path forward stops at the first element
that is not fully valid; the returned valid part is the copies of the fully
valid elements before it, in order, followed by that element's valid
sub-part, with failure; and when every element is fully valid the whole
input path comes back with success. -/
theorem claim_C4 (g : Graph) (pv : PathValidation) (os od : Nat)
    (validPre : List GPath) (ek : GPath) (rest : List GPath) (sub : GPath)
    (hpre : ∀ e ∈ validPre, FullyValid pv e false)
    (hk : implValidate g pv ek false = .ok (false, sub)) :
    implValidate g pv (.vector os od (validPre ++ ek :: rest)) false =
      .ok (false, .vector os od (validPre ++ [sub])) ∧
    ∀ elems, (∀ e ∈ elems, FullyValid pv e false) →
      implValidate g pv (.vector os od elems) false =
        .ok (true, .vector os od elems) := by
  constructor
  · rw [implValidate_vector_false,
        goFwd_split g pv validPre ek rest sub
          (fun e he => ⟨e, fullyValid_ok g pv e false (hpre e he)⟩) hk]
  · intro elems h
    rw [implValidate_vector_false,
        fullyValidList_goFwd g pv elems (fullyValidList_of_forall pv elems false h)]

/-- Witness for claim C4: the demo composite `[elem1, elem0]` with `elem1`
valid and `elem0` invalid comes back as `[elem1, sub0]` with failure. -/
theorem claim_C4_witness :
    implValidate gAll pvT0 (.vector 1 1 [elem1, elem0]) false =
      .ok (false, .vector 1 1 [elem1, sub0]) := by
  have h := claim_C4 gAll pvT0 1 1 [elem1] elem0 [] sub0
    (by
      intro e he
      rw [List.mem_singleton] at he
      subst he
      exact elem1_fullyValid false)
    (elem0_invalid false)
  exact h.1

/-- Claim C5 evaluation: on reverse validation of the demo three-element
composite whose rank-0 element is the (only) invalid one, the code returns a
composite made of two copies of the failing rank-0 element followed by its
valid sub-part — not the traversed valid elements at ranks 2 and 1 followed
by the sub-part, which is what the claim (mirroring the forward branch)
describes. -/
theorem claim_C5_code :
    implValidate gAll pvT0 (.vector 1 1 [elem0, elem1, elem2]) true =
      .ok (false, .vector 1 1 [GPath.copy elem0, GPath.copy elem0, sub0]) ∧
    GPath.vector 1 1 [GPath.copy elem0, GPath.copy elem0, sub0] ≠
      GPath.vector 1 1 [GPath.copy elem2, GPath.copy elem1, sub0] := by
  constructor
  · have hrev : goRev gAll pvT0 [elem0, elem1, elem2] =
        .ok (some (2, elem0, sub0)) := by
      rw [goRev_cons, goRev_cons, goRev_cons, goRev_nil,
          elem2_valid gAll true, elem1_valid gAll true, elem0_invalid true]
      rfl
    rw [implValidate_vector_true, hrev]
    rfl
  · intro h
    simp [GPath.copy, elem0, elem1, elem2, sub0, rampPath, Path.extract] at h

/-- Claim C6: every path the wrapped collision validator reports fully valid
comes back unchanged from `impl_validate` with success. -/
theorem claim_C6 (g : Graph) (pv : PathValidation) (p : GPath)
    (reverse : Bool) (h : FullyValid pv p reverse) :
    implValidate g pv p reverse = .ok (true, p) :=
  fullyValid_ok g pv p reverse h

/-- Witness for claim C6: the demo composite of two valid elements comes
back unchanged with success. -/
theorem claim_C6_witness :
    implValidate gAll pvT0 (.vector 1 1 [elem1, elem2]) false =
      .ok (true, .vector 1 1 [elem1, elem2]) :=
  claim_C6 gAll pvT0 (.vector 1 1 [elem1, elem2]) false
    (by
      rw [fullyValid_vector, fullyValidList_cons, fullyValidList_cons]
      exact ⟨elem1_fullyValid false,
             elem2_fullyValid false, fullyValidList_nil pvT0 false⟩)

/-- Edges that all fail to build are skipped by the candidate loop. -/
theorem tryEdges_skip (q1 q2 : Config) (l rest : List Edge)
    (h : ∀ x ∈ l, x.build q1 q2 = none) :
    tryEdges q1 q2 (l ++ rest) = tryEdges q1 q2 rest := by
  induction l with
  | nil => rfl
  | cons e l ih =>
    rw [List.cons_append]
    show (match e.build q1 q2 with
          | some path => some path
          | none => tryEdges q1 q2 (l ++ rest)) = tryEdges q1 q2 rest
    rw [h e (List.mem_cons_self e l),
        ih (fun x hx => h x (List.mem_cons_of_mem e hx))]

/-- The candidate loop returns nothing exactly when every edge in the list
fails to build. -/
theorem tryEdges_none_iff (q1 q2 : Config) (l : List Edge) :
    tryEdges q1 q2 l = none ↔ ∀ x ∈ l, x.build q1 q2 = none := by
  induction l with
  | nil => simp [tryEdges]
  | cons e l ih =>
    cases hb : e.build q1 q2 with
    | none => simp [tryEdges, hb, ih]
    | some p => simp [tryEdges, hb]

/-- Claim C7: the candidate edge list is consumed as a stack: with the graph
query returning `es1 ++ e :: es2`, if every edge after `e` (tried before it,
from the back) fails to build and `e` builds `p`, then `impl_compute`
returns `p` immediately, whatever the earlier candidates would do. -/
theorem claim_C7 (graph : StGraph) (q1 q2 : Config) (es1 es2 : List Edge)
    (e : Edge) (p : Path)
    (hq : getPossibleEdges graph q1 q2 = .ok (es1 ++ e :: es2))
    (hb : e.build q1 q2 = some p)
    (hfail : ∀ x ∈ es2, x.build q1 q2 = none) :
    impl_compute graph q1 q2 = some p := by
  unfold impl_compute
  rw [hq]
  show tryEdges q1 q2 (es1 ++ e :: es2).reverse = some p
  rw [List.reverse_append, List.reverse_cons, List.append_assoc,
      tryEdges_skip q1 q2 es2.reverse _
        (fun x hx => hfail x (List.mem_reverse.mp hx))]
  show (match e.build q1 q2 with
        | some path => some path
        | none => tryEdges q1 q2 es1.reverse) = some p
  rw [hb]

/-- Witness for claim C7: with candidates `[eFail, eOk]` the back edge `eOk`
is tried first and its path is returned. -/
theorem claim_C7_witness : impl_compute stDemo [0] [1] = some (rampPath 0 1) :=
  claim_C7 stDemo [0] [1] [eFail] [] eOk (rampPath 0 1) rfl rfl
    (fun x hx => absurd hx (List.not_mem_nil x))

/-- Claim C8: `impl_compute` returns no-path (and never an exception — its
result type is total) exactly when the graph's state/edge query raises a
logic error, or the query returns a candidate list all of whose edges fail
to build (the empty list satisfies this vacuously). -/
theorem claim_C8 (graph : StGraph) (q1 q2 : Config) :
    impl_compute graph q1 q2 = none ↔
      (∃ msg, getPossibleEdges graph q1 q2 = .error msg) ∨
      (∃ es, getPossibleEdges graph q1 q2 = .ok es ∧
         ∀ e ∈ es, e.build q1 q2 = none) := by
  unfold impl_compute
  cases hq : getPossibleEdges graph q1 q2 with
  | error msg => simp [hq]
  | ok es => simp [hq, tryEdges_none_iff, List.mem_reverse]

/-- Claim C9: `NodeSelector::getState` returns the first state of the
priority-ordered sequence whose constraint the configuration satisfies, and
the result depends only on the ordered sequence — any selector holding the
same sequence returns the same state, independent of call history. -/
theorem claim_C9 (s : NodeSelector) (c : Config) (pre : List GraphNode)
    (st : GraphNode) (post : List GraphNode)
    (hs : s.orderedStates = pre ++ st :: post)
    (hpre : ∀ x ∈ pre, x.contains c = false)
    (hst : st.contains c = true) :
    s.getState c = some st ∧
    ∀ s2 : NodeSelector, s2.orderedStates = s.orderedStates →
      s2.getState c = s.getState c := by
  constructor
  · unfold NodeSelector.getState
    rw [hs]
    clear hs
    induction pre with
    | nil =>
      rw [List.nil_append]
      simp [List.find?, hst]
    | cons x pre ih =>
      rw [List.cons_append]
      simp only [List.find?]
      rw [hpre x (List.mem_cons_self x pre)]
      exact ih (fun y hy => hpre y (List.mem_cons_of_mem x hy))
  · intro s2 h2
    unfold NodeSelector.getState
    rw [h2]

/-- Witness for claim C9: the spec's example — states `[A (first coordinate
positive), B (always)]` in that order — classifies `[5]` to `A`. -/
theorem claim_C9_witness :
    selAB.getState [5] = some stateA ∧
    ∀ s2 : NodeSelector, s2.orderedStates = selAB.orderedStates →
      s2.getState [5] = selAB.getState [5] :=
  claim_C9 selAB [5] [] stateA [stateB] rfl
    (fun x hx => absurd hx (List.not_mem_nil x)) rfl

/-- Claim C10: `GraphPathValidation::create` leaves the constraint-graph
reference unset, and the public `validate` asserts it is set (and that the
valid part's endpoints classify), so a call on a freshly created validator
aborts with an assertion failure rather than returning normally. -/
theorem claim_C10 (pv : PathValidation) (p : GPath) (reverse : Bool) :
    (GraphPathValidation.create pv).constraintGraph = none ∧
    (GraphPathValidation.create pv).validate p reverse = .assertionFailure :=
  ⟨rfl, rfl⟩

end Manip
